import Mathlib

/-!
Verification development for the Tiggy course-recommendation backend.

The Python sources under `server/services` and `server/llm` are embedded
shallowly: pure functions become Lean functions on `List Char` / `String`,
`ℚ` models the floating-point similarity scores (multiplications such as
`* 1.2` are exact in the source's intent), `ℤ` models Python ints, and
fallible code returns `Except`.  External collaborators (the MongoDB
handle, the OpenAI client, `json.loads`) are passed in as oracle
parameters, mirroring the call sites.
-/

/-! ## Python string primitives (ASCII behaviour), on `List Char` -/

/-- `str.upper` (ASCII). -/
def pyUpper (s : String) : String := ⟨s.data.map Char.toUpper⟩

/-- `str.lower` (ASCII). -/
def pyLower (s : String) : String := ⟨s.data.map Char.toLower⟩

/-- Does `needle` occur at the head of `hay`? -/
def chStarts : List Char → List Char → Bool
  | [], _ => true
  | _ :: _, [] => false
  | a :: as, b :: bs => a == b && chStarts as bs

/-- Does `needle` occur anywhere in `hay`? -/
def chHas (needle : List Char) : List Char → Bool
  | [] => chStarts needle []
  | c :: cs => chStarts needle (c :: cs) || chHas needle cs

/-- Python `needle in hay` on strings (substring containment). -/
def strContains (hay needle : String) : Bool := chHas needle.data hay.data

/-- Worker for `pySplit`: accumulates the current token in reverse. -/
def pySplitGo (cur : List Char) : List Char → List (List Char)
  | [] => if cur.isEmpty then [] else [cur.reverse]
  | c :: cs =>
    if c.isWhitespace then
      if cur.isEmpty then pySplitGo [] cs else cur.reverse :: pySplitGo [] cs
    else pySplitGo (c :: cur) cs

/-- Python `str.split()` with no argument: split on whitespace runs,
dropping empty tokens. -/
def pySplit (s : String) : List String := (pySplitGo [] s.data).map String.mk

/-- Python `str.strip()` on whitespace. -/
def pyStrip (s : String) : String :=
  ⟨((s.data.dropWhile Char.isWhitespace).reverse.dropWhile Char.isWhitespace).reverse⟩

/-! ## Distribution-code synonym normalization

Mirrors the dict `{'STL': 'SEL', 'STN': 'SEN', 'QR': 'QCR'}` with
`.get(code, code)` used in `course_recommender.py`. -/

def normalizeDistCode (s : String) : String :=
  if s == "STL" then "SEL"
  else if s == "STN" then "SEN"
  else if s == "QR" then "QCR"
  else s

/-- Dict key-membership test `code in past_courses` for the
`past_courses` mapping (course code → grade). -/
def in_past (past_courses : List (String × String)) (code : String) : Bool :=
  past_courses.any (fun kv => kv.1 == code)

/-! ## `get_courses_by_distribution` (course_recommender.py, lines 67-103)

The Distribution Index (`distribution_to_courses.json`) is passed in as an
association list, mirroring the parsed JSON dict. -/

/-- `distribution_mapping.get(normalized_code, [])`. -/
def distIndexEntries (mapping : List (String × List String)) (code : String) :
    List String :=
  ((mapping.find? (fun kv => kv.1 == code)).map Prod.snd).getD []

/-- Embedding of `get_courses_by_distribution`.  `past_courses` models the
optional dict; Python truthiness of the dict is `!past_courses.isEmpty`. -/
def get_courses_by_distribution (mapping : List (String × List String))
    (distribution_code : String) (past_courses : List (String × String))
    (exclude_taken : Bool) : List String :=
  let normalized_code := normalizeDistCode (pyUpper distribution_code)
  let matching_courses := distIndexEntries mapping normalized_code
  if exclude_taken && !past_courses.isEmpty then
    matching_courses.filter (fun code => !(in_past past_courses code))
  else
    matching_courses

/-! ## `get_student_data` (course_recommender.py, lines 195-240)

`acquireDb` models the `get_database()` call on line 208, which sits
*outside* the `try` block; `findUser` models
`db.users.find_one({"_id": ObjectId(user_id)})`, whose failure (including
a malformed ObjectId) is caught by the `except` clause. -/

/-- The raw `past_courses` field stored on a user document: either an
actual dict or a value of some other type. -/
inductive StoredPast where
  | dict (entries : List (String × String))
  | nondict
deriving DecidableEq, Repr

/-- A user document as read from MongoDB. -/
structure UserDoc where
  past_courses : Option StoredPast
  concentration : Option String
  grade : Option String
deriving DecidableEq, Repr

/-- The student-data record returned by `get_student_data`. -/
structure StudentData where
  past_courses : List (String × String)
  concentration : Option String
  grade : Option String
deriving DecidableEq, Repr

/-- Embedding of `get_student_data`. -/
def get_student_data (acquireDb : Except Unit Unit)
    (findUser : Except Unit (Option UserDoc)) : Except Unit StudentData :=
  match acquireDb with
  | .error e => .error e
  | .ok _ =>
    match findUser with
    | .error _ => .ok ⟨[], none, none⟩
    | .ok none => .ok ⟨[], none, none⟩
    | .ok (some u) =>
      let pc :=
        match u.past_courses with
        | some (.dict d) => d
        | some .nondict => []
        | none => []
      .ok ⟨pc, u.concentration, u.grade⟩

/-- The default record the spec says `get_student_data` produces when the
stored value is missing or unusable (claim-side definition). -/
def defaultStudentData : StudentData := ⟨[], none, none⟩

/-- Claim-side reading of the stored `past_courses` field: a stored dict
is kept, anything else is replaced by the empty dict. -/
def storedPastOrEmpty : Option StoredPast → List (String × String)
  | some (.dict d) => d
  | some .nondict => []
  | none => []

/-! ## Deterministic query classification fallback
(chat_response.py, lines 100-195) -/

/-- The `dept_keywords` table of `chat_response.build_chat_prompt`, in
source order (keyword → department codes). -/
def dept_keywords : List (String × List String) :=
  [("computer science", ["COS"]), ("cs", ["COS"]), ("programming", ["COS"]),
   ("economics", ["ECO"]), ("history", ["HIS"]), ("philosophy", ["PHI"]),
   ("math", ["MAT"]), ("mathematics", ["MAT"]), ("physics", ["PHY"]),
   ("chemistry", ["CHM"]), ("biology", ["MOL", "EEB"]), ("english", ["ENG"]),
   ("literature", ["ENG"]), ("politics", ["POL"]),
   ("political science", ["POL"]), ("psychology", ["PSY"]),
   ("sociology", ["SOC"]), ("art", ["ART", "VIS"]), ("music", ["MUS"]),
   ("theater", ["THR"])]

/-- The `distribution_keywords` table of `chat_response.build_chat_prompt`,
in source order (keyword → requirement description). -/
def distribution_keywords : List (String × String) :=
  [("cd", "CD (Culture and Difference)"),
   ("culture and difference", "CD (Culture and Difference)"),
   ("ec", "EC (Epistemology and Cognition)"),
   ("epistemology and cognition", "EC (Epistemology and Cognition)"),
   ("epistemology", "EC (Epistemology and Cognition)"),
   ("cognition", "EC (Epistemology and Cognition)"),
   ("em", "EM (Ethical Thought and Moral Values)"),
   ("ethical thought and moral values", "EM (Ethical Thought and Moral Values)"),
   ("ethical thought", "EM (Ethical Thought and Moral Values)"),
   ("moral values", "EM (Ethical Thought and Moral Values)"),
   ("ethics", "EM (Ethical Thought and Moral Values)"),
   ("ha", "HA (Historical Analysis)"),
   ("historical analysis", "HA (Historical Analysis)"),
   ("la", "LA (Literature and the Arts)"),
   ("literature and the arts", "LA (Literature and the Arts)"),
   ("literature and arts", "LA (Literature and the Arts)"),
   ("qcr", "QCR (Quantitative and Computational Reasoning)"),
   ("quantitative and computational reasoning", "QCR (Quantitative and Computational Reasoning)"),
   ("quantitative reasoning", "QCR (Quantitative and Computational Reasoning)"),
   ("computational reasoning", "QCR (Quantitative and Computational Reasoning)"),
   ("sel", "SEL (Science and Engineering with Laboratory)"),
   ("science and engineering with lab", "SEL (Science and Engineering with Laboratory)"),
   ("science and engineering with laboratory", "SEL (Science and Engineering with Laboratory)"),
   ("science with lab", "SEL (Science and Engineering with Laboratory)"),
   ("science with laboratory", "SEL (Science and Engineering with Laboratory)"),
   ("sen", "SEN (Science and Engineering No Lab)"),
   ("science and engineering no lab", "SEN (Science and Engineering No Lab)"),
   ("science no lab", "SEN (Science and Engineering No Lab)"),
   ("science without lab", "SEN (Science and Engineering No Lab)"),
   ("science without laboratory", "SEN (Science and Engineering No Lab)"),
   ("sa", "SA (Social Analysis)"),
   ("social analysis", "SA (Social Analysis)"),
   ("distribution", "distribution requirement"),
   ("distribution requirement", "distribution requirement"),
   ("fulfill", "requirement"),
   ("requirement", "requirement"),
   ("prerequisite", "prerequisite"),
   ("prereq", "prerequisite")]

/-- `is_subject_query` of `chat_response.build_chat_prompt`: some
department keyword occurs in the lowercased query. -/
def is_subject_query (user_query : String) : Bool :=
  dept_keywords.any (fun kv => strContains (pyLower user_query) kv.1)

/-- `is_requirement_query` of `chat_response.build_chat_prompt`: the
requirement-keyword scan runs only when `is_subject_query` is false. -/
def is_requirement_query (user_query : String) : Bool :=
  !is_subject_query user_query &&
    distribution_keywords.any (fun kv => strContains (pyLower user_query) kv.1)

/-- Intents distinguished by the prompt-building code. -/
inductive ChatIntent where
  | subject
  | requirement
deriving DecidableEq, Repr

/-- The intent actually acted on by `chat_response.build_chat_prompt`:
requirement-specific instructions are rendered iff `is_requirement_query`
holds, and the subject-area instruction block otherwise. -/
def fallback_intent (user_query : String) : ChatIntent :=
  if is_requirement_query user_query then .requirement else .subject

/-- Claim-side recognition rule for the subject intent: some department
keyword occurs in the query. -/
def subject_rule_matches (user_query : String) : Bool :=
  dept_keywords.any (fun kv => strContains (pyLower user_query) kv.1)

/-- Claim-side recognition rule for the requirement intent: some
distribution/requirement keyword occurs in the query (not gated on the
subject rule). -/
def requirement_rule_matches (user_query : String) : Bool :=
  distribution_keywords.any (fun kv => strContains (pyLower user_query) kv.1)

/-! ## Similarity-strategy candidate list
(chat_prompts.py build_chat_prompt, lines 393-440)

For a similarity query the code walks `vector_results[:15]`, skips the
anchor course by case-insensitive exact code match, and keeps only
courses found in the catalog (`if course_details:`).  `courseFound`
models the truthiness of `extract_course_details`. -/

def similarity_candidates (vector_results : List (String × ℚ))
    (similarity_course_code : String) (courseFound : String → Bool) :
    List (String × ℚ) :=
  (vector_results.take 15).filter
    (fun p =>
      !(pyUpper p.1 == pyUpper similarity_course_code) && courseFound p.1)

/-! ## Decidable equality for `Except` (used to evaluate embeddings on
concrete inputs) -/

instance {ε α : Type} [DecidableEq ε] [DecidableEq α] : DecidableEq (Except ε α)
  | .error e, .error f =>
    if h : e = f then .isTrue (by rw [h]) else .isFalse (by intro hh; cases hh; exact h rfl)
  | .error _, .ok _ => .isFalse (by intro h; cases h)
  | .ok _, .error _ => .isFalse (by intro h; cases h)
  | .ok x, .ok y =>
    if h : x = y then .isTrue (by rw [h]) else .isFalse (by intro hh; cases hh; exact h rfl)

/-! ## `filter_and_rerank_courses` (course_recommender.py, lines 1062-1139)

Scores are modelled as exact rationals.  The per-candidate body of the
loop becomes `rerank_step`; the one uncaught exception site is
`course_code.split()[0]` inside the concentration boost (the level
extraction `course_code.split()[1]` is wrapped in `try/except`, the
concentration lookup is not), modelled as `Except.error`. -/

/-- Python truthiness of an optional int (`None` and `0` are falsy). -/
def truthyInt : Option Int → Bool
  | none => false
  | some n => n != 0

/-- Python truthiness of an optional string (`None` and `""` are falsy). -/
def truthyStr : Option String → Bool
  | none => false
  | some s => !s.data.isEmpty

/-- `int(course_code.split()[1][0]) * 100` guarded by
`except (ValueError, IndexError)`: `none` when there is no second token
or its first character is not a digit. -/
def course_level (course_code : String) : Option Int :=
  match pySplit course_code with
  | _ :: catalog_number :: _ =>
    match catalog_number.data with
    | [] => none
    | d :: _ =>
      if d.isDigit then some (((d.toNat : Int) - 48) * 100) else none
  | _ => none

/-- `course_code.split()[0]`: the department token. -/
def course_department (course_code : String) : Option String :=
  match pySplit course_code with
  | subj :: _ => some subj
  | [] => none

/-- The concentration boost block of the loop body
(`if concentration: subject_code = course_code.split()[0]; ...`).  The
`split()[0]` lookup is outside the `try`, so a token-less course code
raises an uncaught `IndexError` here whenever the concentration is
truthy. -/
def conc_boost (concentration : Option String) (course_code : String)
    (score : ℚ) : Except Unit ℚ :=
  match concentration with
  | some conc =>
    if !conc.data.isEmpty then
      match pySplit course_code with
      | [] => .error ()
      | subj :: _ =>
        if pyUpper subj == pyUpper conc then .ok (score * 1.2) else .ok score
    else .ok score
  | none => .ok score

/-- The class-year adjustment block of the loop body
(`if grade and course_level: ...`). -/
def year_adjust (grade : Option String) (lvl : Option Int) (s1 : ℚ) : ℚ :=
  if truthyStr grade && truthyInt lvl then
    let g := pyLower (grade.getD "")
    let l := lvl.getD 0
    if g == "freshman" || g == "first-year" then
      if l == 100 then s1 * 1.1
      else if l ≥ 300 then s1 * 0.8
      else s1
    else if g == "sophomore" then
      if l == 200 then s1 * 1.1
      else if l ≥ 400 then s1 * 0.9
      else s1
    else if g == "junior" || g == "senior" then
      if l ≥ 300 then s1 * 1.05 else s1
    else s1
  else s1

/-- One iteration of the `filter_and_rerank_courses` loop.
`ok none` = the candidate was dropped by a `continue`,
`ok (some (code, score))` = the candidate was appended with its final
score, `error` = the uncaught `IndexError` raised by
`course_code.split()[0]` on a token-less course code. -/
def rerank_step (past_courses : List (String × String))
    (concentration : Option String) (grade : Option String)
    (max_level : Option Int) (min_similarity : ℚ) (cand : String × ℚ) :
    Except Unit (Option (String × ℚ)) :=
  let course_code := cand.1
  let similarity_score := cand.2
  if similarity_score < min_similarity then .ok none
  else if in_past past_courses course_code then .ok none
  else
    let lvl := course_level course_code
    if truthyInt max_level && truthyInt lvl &&
        decide (lvl.getD 0 > max_level.getD 0) then .ok none
    else
      match conc_boost concentration course_code similarity_score with
      | .error e => .error e
      | .ok s1 => .ok (some (course_code, year_adjust grade lvl s1))

/-- The whole filtering loop, in input order (the `filtered` list just
before the final sort). -/
def rerank_pass (past_courses : List (String × String))
    (concentration : Option String) (grade : Option String)
    (max_level : Option Int) (min_similarity : ℚ) :
    List (String × ℚ) → Except Unit (List (String × ℚ))
  | [] => .ok []
  | cand :: rest =>
    match rerank_step past_courses concentration grade max_level
        min_similarity cand with
    | .error e => .error e
    | .ok r =>
      match rerank_pass past_courses concentration grade max_level
          min_similarity rest with
      | .error e => .error e
      | .ok tail =>
        match r with
        | some x => .ok (x :: tail)
        | none => .ok tail

/-- Stable descending insertion: `x` goes before the first element whose
score is strictly below `x`, hence after all earlier elements with an
equal score. -/
def insert_desc (x : String × ℚ) : List (String × ℚ) → List (String × ℚ)
  | [] => [x]
  | y :: ys => if y.2 < x.2 then x :: y :: ys else y :: insert_desc x ys

/-- `filtered.sort(key=lambda x: x[1], reverse=True)`: Python's sort is
stable, which stable insertion sort reproduces exactly. -/
def sort_desc (l : List (String × ℚ)) : List (String × ℚ) :=
  l.foldl (fun acc x => insert_desc x acc) []

/-- Embedding of `filter_and_rerank_courses`. -/
def filter_and_rerank_courses (vector_results : List (String × ℚ))
    (past_courses : List (String × String)) (concentration : Option String)
    (grade : Option String) (max_level : Option Int) (min_similarity : ℚ) :
    Except Unit (List (String × ℚ)) :=
  match rerank_pass past_courses concentration grade max_level
      min_similarity vector_results with
  | .error e => .error e
  | .ok filtered => .ok (sort_desc filtered)

/-! ### Claim-side scoring specification for the rerank stage -/

/-- Claim-side concentration boost: 1.2 when the concentration is given
(nonempty) and equals the course department case-insensitively, else 1. -/
def spec_conc_factor (concentration : Option String) (course_code : String) : ℚ :=
  match concentration, course_department course_code with
  | some conc, some dept =>
    if !conc.data.isEmpty && (pyUpper dept == pyUpper conc) then 1.2 else 1
  | _, _ => 1

/-- Claim-side class-year factor. -/
def spec_year_factor (grade : Option String) (lvl : Option Int) : ℚ :=
  if truthyStr grade && truthyInt lvl then
    let g := pyLower (grade.getD "")
    let l := lvl.getD 0
    if g == "freshman" || g == "first-year" then
      if l == 100 then 1.1 else if l ≥ 300 then 0.8 else 1
    else if g == "sophomore" then
      if l == 200 then 1.1 else if l ≥ 400 then 0.9 else 1
    else if g == "junior" || g == "senior" then
      if l ≥ 300 then 1.05 else 1
    else 1
  else 1

/-- Claim-side level ceiling: when a max level is given (set and nonzero,
Python truthiness) and the course level is defined (and nonzero), the
level does not exceed the ceiling. -/
def spec_level_ok (max_level : Option Int) (lvl : Option Int) : Prop :=
  truthyInt max_level = true → truthyInt lvl = true →
    lvl.getD 0 ≤ max_level.getD 0

/-! ## `filter_courses_by_distribution` (course_recommender.py, lines 358-424)

The catalog term is modelled as its list of subjects; a course carries an
optional catalog number and a `distribution` field that is either a list,
a string, or something else (`detail.get('distribution', '')` yields `""`
when the key is missing). -/

/-- The shape of the `detail['distribution']` field. -/
inductive DistributionField where
  | dlist (tags : List String)
  | dstr (s : String)
  | dother
deriving DecidableEq, Repr

/-- A course inside a subject of the catalog JSON (only the fields this
function reads). -/
structure CourseEntry where
  catalog_number : Option String
  distribution : DistributionField
deriving DecidableEq, Repr

/-- A subject of the catalog JSON. -/
structure SubjectEntry where
  code : String
  courses : List CourseEntry
deriving DecidableEq, Repr

/-- `dist_upper.replace(',', ' ')` for a single-character pattern. -/
def commaToSpace (s : String) : String :=
  ⟨s.data.map (fun ch => if ch == ',' then ' ' else ch)⟩

/-- The match test of `filter_courses_by_distribution` against a course's
distribution field, given the synonym-normalized code `nc` and the plain
uppercased code `du`. -/
def dist_matches (nc du : String) : DistributionField → Bool
  | .dlist tags =>
    let dist_codes :=
      (tags.filter (fun t => !t.data.isEmpty)).map (fun t => pyUpper (pyStrip t))
    dist_codes.contains nc || dist_codes.contains du
  | .dstr s =>
    let dist_upper := pyUpper s
    (strContains dist_upper nc || strContains dist_upper du) &&
      (let dist_parts :=
        (pySplit (commaToSpace dist_upper)).map (fun t => pyUpper (pyStrip t))
       dist_parts.contains nc || dist_parts.contains du)
  | .dother => false

/-- Embedding of `filter_courses_by_distribution` over the subjects of the
first term. -/
def filter_courses_by_distribution (subjects : List SubjectEntry)
    (distribution_code : String) (past_courses : List (String × String))
    (exclude_taken : Bool) : List String :=
  let distribution_code_upper := pyUpper distribution_code
  let normalized_code := normalizeDistCode distribution_code_upper
  subjects.flatMap (fun subj =>
    subj.courses.filterMap (fun course =>
      match course.catalog_number with
      | none => none
      | some catalog_num =>
        if catalog_num.data.isEmpty then none
        else
          let course_code := subj.code ++ " " ++ catalog_num
          if exclude_taken && !past_courses.isEmpty &&
              in_past past_courses course_code then none
          else if dist_matches normalized_code distribution_code_upper
              course.distribution then some course_code
          else none))

/-- Claim-side normalized distribution tags of a course: each tag (list
element, or whitespace/comma-delimited token of the string form) stripped,
uppercased and passed through the synonym table. -/
def spec_normalized_tags : DistributionField → List String
  | .dlist tags =>
    ((tags.filter (fun t => !t.data.isEmpty)).map
      (fun t => pyUpper (pyStrip t))).map normalizeDistCode
  | .dstr s =>
    ((pySplit (commaToSpace (pyUpper s))).map
      (fun t => pyUpper (pyStrip t))).map normalizeDistCode
  | .dother => []

/-! ## `cosine_similarity` (embeddings_utils.py, lines 34-55)

Vectors are modelled over `ℝ` (the idealization of IEEE doubles used by
the spec's algebraic properties). -/

/-- `np.dot` on equal-length vectors. -/
def npDot (a b : List ℝ) : ℝ := (List.zipWith (· * ·) a b).sum

/-- `np.linalg.norm`. -/
noncomputable def npNorm (a : List ℝ) : ℝ := Real.sqrt (npDot a a)

/-- Embedding of `cosine_similarity`, including the zero-norm guard. -/
noncomputable def cosine_similarity (vec1 vec2 : List ℝ) : ℝ :=
  if npNorm vec1 = 0 ∨ npNorm vec2 = 0 then 0
  else npDot vec1 vec2 / (npNorm vec1 * npNorm vec2)

/-! ## `parse_course_codes` / `normalize_course_code` /
`generate_course_recommendations` (openai_service.py)

`json.loads` is an oracle `String → Option PyJson` (`none` =
`JSONDecodeError`); the OpenAI chat call is an oracle
`ℕ → Except Unit String` indexed by the attempt number. -/

/-- Parsed JSON values as Python sees them. -/
inductive PyJson where
  | str (s : String)
  | num (n : Int)
  | boolean (b : Bool)
  | null
  | arr (items : List PyJson)
  | obj (fields : List (String × PyJson))
deriving Repr

/-- Python truthiness of a JSON value. -/
def pyTruthy : PyJson → Bool
  | .str s => !s.data.isEmpty
  | .num n => n != 0
  | .boolean b => b
  | .null => false
  | .arr xs => !xs.isEmpty
  | .obj kvs => !kvs.isEmpty

/-- Python iteration over a JSON value: lists yield elements, strings
yield one-character strings, dicts yield their keys; numbers, booleans
and `None` raise `TypeError`. -/
def pyIter : PyJson → Except Unit (List PyJson)
  | .arr xs => .ok xs
  | .str s => .ok (s.data.map (fun ch => .str ⟨[ch]⟩))
  | .obj kvs => .ok (kvs.map (fun kv => .str kv.1))
  | _ => .error ()

/-- `[A-Z]` (the regex character class used by both patterns). -/
def isUpperAZ (c : Char) : Bool := 'A' ≤ c && c ≤ 'Z'

/-- A regex word character, for `\b` boundaries. -/
def isWordChar (c : Char) : Bool := c.isAlpha || c.isDigit || c == '_'

/-- Leading/trailing `strip('"\'')`: drop quote characters (double quote
and apostrophe, code point 39) from both ends. -/
def isQuoteChar (c : Char) : Bool := c == '"' || c.toNat == 39

def stripQuotes (cs : List Char) : List Char :=
  ((cs.dropWhile isQuoteChar).reverse.dropWhile isQuoteChar).reverse

/-- `re.sub(r'\s+', ' ', code)`: every maximal whitespace run becomes a
single space. -/
def collapseWs : List Char → List Char
  | [] => []
  | [c] => [if c.isWhitespace then ' ' else c]
  | c :: d :: cs =>
    if c.isWhitespace && d.isWhitespace then collapseWs (d :: cs)
    else (if c.isWhitespace then ' ' else c) :: collapseWs (d :: cs)

/-- Three decimal digits at the head of the input. -/
def threeDigits : List Char → Option (Char × Char × Char × List Char)
  | d :: e :: f :: rest =>
    if d.isDigit && e.isDigit && f.isDigit then some (d, e, f, rest) else none
  | _ => none

/-- Embedding of `normalize_course_code`: strip, uppercase, strip quotes,
dashes to spaces, collapse whitespace, then match
`^([A-Z]{3})\s+(\d{3})$` or `^([A-Z]{3})(\d{3})$`. -/
def normalize_course_code (course_code : String) : Option String :=
  if course_code.data.isEmpty then none
  else
    let code0 := (pyStrip course_code).data.map Char.toUpper
    let code1 := stripQuotes code0
    let code2 := code1.map (fun ch => if ch == '-' then ' ' else ch)
    let code := collapseWs code2
    match code with
    | a :: b :: c :: rest =>
      if isUpperAZ a && isUpperAZ b && isUpperAZ c then
        let ws := rest.takeWhile Char.isWhitespace
        let tail := rest.dropWhile Char.isWhitespace
        if !ws.isEmpty then
          match threeDigits tail with
          | some (d, e, f, []) => some ⟨[a, b, c, ' ', d, e, f]⟩
          | _ => none
        else
          match threeDigits rest with
          | some (d, e, f, []) => some ⟨[a, b, c, ' ', d, e, f]⟩
          | _ => none
      else none
    | _ => none

/-- Is the position after a match a `\b` boundary? -/
def boundaryAfter : List Char → Bool
  | [] => true
  | c :: _ => !isWordChar c

/-- One attempted match of `\b([A-Z]{3})\s+(\d{3})\b` at the current
position (the leading boundary is checked by the scanner). -/
def matchSpaced : List Char → Option (String × List Char)
  | a :: b :: c :: rest =>
    if isUpperAZ a && isUpperAZ b && isUpperAZ c then
      let ws := rest.takeWhile Char.isWhitespace
      let tail := rest.dropWhile Char.isWhitespace
      if ws.isEmpty then none
      else
        match threeDigits tail with
        | some (d, e, f, rest2) =>
          if boundaryAfter rest2 then some (⟨[a, b, c, ' ', d, e, f]⟩, rest2)
          else none
        | none => none
    else none
  | _ => none

/-- One attempted match of `\b([A-Z]{3})(\d{3})\b` at the current
position. -/
def matchJoined : List Char → Option (String × List Char)
  | a :: b :: c :: rest =>
    if isUpperAZ a && isUpperAZ b && isUpperAZ c then
      match threeDigits rest with
      | some (d, e, f, rest2) =>
        if boundaryAfter rest2 then some (⟨[a, b, c, ' ', d, e, f]⟩, rest2)
        else none
      | none => none
    else none
  | _ => none

/-- `re.findall` scan: leftmost, non-overlapping, resuming after each
match.  `prevIsWord` tracks the `\b` boundary before the current
position; the fuel is bounded by the text length. -/
def scanMatches (tryMatch : List Char → Option (String × List Char)) :
    ℕ → Bool → List Char → List String
  | 0, _, _ => []
  | _ + 1, _, [] => []
  | fuel + 1, prevIsWord, c :: rest =>
    if !prevIsWord then
      match tryMatch (c :: rest) with
      | some (code, rest2) => code :: scanMatches tryMatch fuel true rest2
      | none => scanMatches tryMatch fuel (isWordChar c) rest
    else scanMatches tryMatch fuel (isWordChar c) rest

/-- `if course_code not in course_codes: course_codes.append(course_code)`. -/
def addUnique (acc : List String) (code : String) : List String :=
  if acc.contains code then acc else acc ++ [code]

/-- The regex fallback of `parse_course_codes`: both patterns over the
uppercased text, deduplicated in discovery order, normalized, capped
at 5. -/
def extractByRegex (response_text : String) : List String :=
  let up := response_text.data.map Char.toUpper
  let m1 := scanMatches matchSpaced up.length false up
  let m2 := scanMatches matchJoined up.length false up
  let codes := (m1 ++ m2).foldl addUnique []
  (codes.filterMap normalize_course_code).take 5

/-- `normalize_course_code(code)` applied to a JSON element: falsy values
yield `None` via the `if not course_code` guard, truthy non-strings raise
`AttributeError` at `.strip()`. -/
def normalizePyCode (v : PyJson) : Except Unit (Option String) :=
  if !pyTruthy v then .ok none
  else
    match v with
    | .str s => .ok (normalize_course_code s)
    | _ => .error ()

/-- The normalization loop of the JSON branch, left to right, first
exception propagating. -/
def normalizeAll : List PyJson → Except Unit (List String)
  | [] => .ok []
  | v :: vs =>
    match normalizePyCode v with
    | .error e => .error e
    | .ok r =>
      match normalizeAll vs with
      | .error e => .error e
      | .ok rest =>
        .ok (match r with | some c => c :: rest | none => rest)

/-- First value under key `k` of a parsed JSON object. -/
def objLookup (kvs : List (String × PyJson)) (k : String) : Option PyJson :=
  (kvs.find? (fun kv => kv.1 == k)).map Prod.snd

/-- The candidate container chosen by the JSON branch: the keys
`courses` / `recommendations` / `course_codes` in order, else the first
list-valued entry; a top-level array is used directly. -/
def extractCandidates : PyJson → Option PyJson
  | .obj kvs =>
    match objLookup kvs "courses" with
    | some v => some v
    | none =>
      match objLookup kvs "recommendations" with
      | some v => some v
      | none =>
        match objLookup kvs "course_codes" with
        | some v => some v
        | none =>
          (kvs.find? (fun kv =>
            match kv.2 with | .arr _ => true | _ => false)).map Prod.snd
  | .arr xs => some (.arr xs)
  | _ => none

/-- Embedding of `parse_course_codes`.  An `error` is an uncaught
`TypeError`/`AttributeError` escaping the JSON branch. -/
def parse_course_codes (jsonLoads : String → Option PyJson)
    (response_text : String) : Except Unit (List String) :=
  match jsonLoads response_text with
  | some j =>
    match extractCandidates j with
    | some v =>
      if pyTruthy v then
        match pyIter v with
        | .error e => .error e
        | .ok items =>
          match normalizeAll items with
          | .error e => .error e
          | .ok normalized => .ok (normalized.take 5)
      else .ok (extractByRegex response_text)
    | none => .ok (extractByRegex response_text)
  | none => .ok (extractByRegex response_text)

/-- Failure modes of `generate_course_recommendations`: an API exception
re-raised after the last attempt, an uncaught parser exception, or the
`ValueError` raised when too few codes were extracted. -/
inductive RecFailure where
  | apiFailure
  | parseFailure
  | validationFailure
deriving DecidableEq, Repr

/-- The retry loop of `generate_course_recommendations` over the list of
remaining attempt indices (`range(max_retries)`).  The `ValueError`
raised inside the `try` on the last attempt is caught by
`except Exception` and re-raised, so it surfaces unchanged. -/
def recommendation_attempts (jsonLoads : String → Option PyJson)
    (llmResponse : ℕ → Except Unit String) :
    List ℕ → Except RecFailure (List String)
  | [] => .error .validationFailure
  | attempt :: rest =>
    match llmResponse attempt with
    | .error _ =>
      if rest.isEmpty then .error .apiFailure
      else recommendation_attempts jsonLoads llmResponse rest
    | .ok response_text =>
      match parse_course_codes jsonLoads response_text with
      | .error _ =>
        if rest.isEmpty then .error .parseFailure
        else recommendation_attempts jsonLoads llmResponse rest
      | .ok course_codes =>
        if course_codes.length == 5 then .ok course_codes
        else if course_codes.length > 5 then .ok (course_codes.take 5)
        else if rest.isEmpty then .error .validationFailure
        else recommendation_attempts jsonLoads llmResponse rest

/-- Embedding of `generate_course_recommendations`. -/
def generate_course_recommendations (jsonLoads : String → Option PyJson)
    (llmResponse : ℕ → Except Unit String) (max_retries : ℕ) :
    Except RecFailure (List String) :=
  recommendation_attempts jsonLoads llmResponse (List.range max_retries)

/-! # Theorems -/

/-- C1: `get_courses_by_distribution(d, P, exclude_taken=True)` returns
exactly the Distribution Index entry list for the synonym-normalized,
uppercased code with every key of `P` removed, keeping the original
order; and any two codes with the same normalization (in particular a
legacy code and its canonical synonym) yield identical lists. -/
theorem c1_distribution_lookup :
    (∀ (mapping : List (String × List String)) (d : String)
        (P : List (String × String)),
      get_courses_by_distribution mapping d P true =
        (distIndexEntries mapping (normalizeDistCode (pyUpper d))).filter
          (fun code => !(in_past P code))) ∧
    (∀ (mapping : List (String × List String)) (dLegacy d : String)
        (P : List (String × String)) (exclude_taken : Bool),
      normalizeDistCode (pyUpper dLegacy) = normalizeDistCode (pyUpper d) →
      get_courses_by_distribution mapping dLegacy P exclude_taken =
        get_courses_by_distribution mapping d P exclude_taken) := by
  constructor
  · intro mapping d P
    unfold get_courses_by_distribution
    cases P with
    | nil => simp [in_past]
    | cons kv tl => simp [in_past]
  · intro mapping dLegacy d P exclude_taken h
    unfold get_courses_by_distribution
    rw [h]

/-- Witness for C1 at a concrete legacy/canonical pair. -/
theorem c1_distribution_lookup_witness :
    normalizeDistCode (pyUpper "stl") = normalizeDistCode (pyUpper "SEL") ∧
    get_courses_by_distribution [("SEL", ["AAS 225", "PHY 101"])] "stl"
        [("AAS 225", "A")] true =
      get_courses_by_distribution [("SEL", ["AAS 225", "PHY 101"])] "SEL"
        [("AAS 225", "A")] true :=
  ⟨by decide, c1_distribution_lookup.2 _ "stl" "SEL" _ true (by decide)⟩

/-- C2 counterexample: a query matching both a department keyword
(`history`) and requirement keywords (`ha`, `fulfill`, `requirement`) is
classified by the deterministic fallback layer as a subject query, not a
requirement query, because `chat_response.build_chat_prompt` checks
subject keywords first and skips requirement detection entirely when one
matches — the opposite of the claimed requirement > subject priority. -/
theorem c2_priority_counterexample :
    subject_rule_matches
        "i need a history class that fulfills the ha requirement" = true ∧
    requirement_rule_matches
        "i need a history class that fulfills the ha requirement" = true ∧
    fallback_intent
        "i need a history class that fulfills the ha requirement" =
      ChatIntent.subject ∧
    ChatIntent.subject ≠ ChatIntent.requirement :=
  ⟨by decide, by decide, by decide, by decide⟩

/-- C2 amended: in the deterministic pattern-matching fallback layer the
priority is subject over requirement — a query matching any department
keyword is handled as a subject query, and requirement handling applies
only when no department keyword occurs but a requirement keyword does. -/
theorem c2_fallback_priority_amended :
    (∀ q : String, subject_rule_matches q = true →
      fallback_intent q = ChatIntent.subject) ∧
    (∀ q : String, subject_rule_matches q = false →
      requirement_rule_matches q = true →
      fallback_intent q = ChatIntent.requirement) := by
  constructor
  · intro q h
    unfold fallback_intent is_requirement_query is_subject_query
    unfold subject_rule_matches at h
    simp [h]
  · intro q h1 h2
    unfold fallback_intent is_requirement_query is_subject_query
    unfold subject_rule_matches at h1
    unfold requirement_rule_matches at h2
    simp [h1, h2]

/-- Witness for the amended C2 at concrete queries. -/
theorem c2_fallback_priority_amended_witness :
    fallback_intent "i need a history class that fulfills the ha requirement" =
      ChatIntent.subject ∧
    fallback_intent "which class fulfills the ha requirement" =
      ChatIntent.requirement :=
  ⟨c2_fallback_priority_amended.1 _ (by decide),
   c2_fallback_priority_amended.2 _ (by decide) (by decide)⟩

/-- C3: the similarity-strategy candidate list rendered for the prompt
never contains the anchor course: every retained entry differs from the
anchor code (even case-insensitively), regardless of where the anchor
ranks in the vector results — in particular even when it is the
top-scoring match. -/
theorem c3_similarity_excludes_anchor :
    ∀ (vector_results : List (String × ℚ)) (anchor : String)
      (courseFound : String → Bool),
      (similarity_candidates vector_results anchor courseFound).all
        (fun p => !(p.1 == anchor) && !(pyUpper p.1 == pyUpper anchor)) =
        true := by
  intro vr anchor found
  rw [List.all_eq_true]
  intro p hp
  have hcond := (List.mem_filter.mp hp).2
  rw [Bool.and_eq_true] at hcond
  have hup : (pyUpper p.1 == pyUpper anchor) = false := by
    cases hcase : (pyUpper p.1 == pyUpper anchor) with
    | false => rfl
    | true => rw [hcase] at hcond; simp at hcond
  have hne : (p.1 == anchor) = false := by
    cases hcase : (p.1 == anchor) with
    | false => rfl
    | true =>
      have : p.1 = anchor := by simpa using hcase
      rw [this] at hup
      simp at hup
  rw [hne, hup]
  rfl

/-- C10 counterexample: when acquiring the database handle fails (the
`get_database()` call on line 208 sits outside the `try` block, e.g. a
`RuntimeError` without a Flask application context), `get_student_data`
propagates the exception instead of returning the default record. -/
theorem c10_student_data_counterexample :
    get_student_data (Except.error ()) (Except.ok none) = Except.error () :=
  rfl

/-- C10 amended: provided the database handle is acquired successfully,
`get_student_data` is total: a failing or empty `find_one` lookup yields
the default record (empty `past_courses`, `None` concentration and
grade), and a found user yields the stored fields, with a non-dict
`past_courses` value replaced by the empty dict. -/
theorem c10_student_data_defaults_amended :
    get_student_data (Except.ok ()) (Except.error ()) =
      Except.ok defaultStudentData ∧
    get_student_data (Except.ok ()) (Except.ok none) =
      Except.ok defaultStudentData ∧
    ∀ u : UserDoc, get_student_data (Except.ok ()) (Except.ok (some u)) =
      Except.ok ⟨storedPastOrEmpty u.past_courses, u.concentration, u.grade⟩ := by
  refine ⟨rfl, rfl, ?_⟩
  intro u
  rcases u with ⟨pc, conc, grade⟩
  cases pc with
  | none => rfl
  | some sp => cases sp <;> rfl

/-! ### Sorting lemmas for the rerank stage -/

theorem mem_insert_desc {x y : String × ℚ} {l : List (String × ℚ)} :
    y ∈ insert_desc x l ↔ y = x ∨ y ∈ l := by
  induction l with
  | nil => simp [insert_desc]
  | cons z zs ih =>
    unfold insert_desc
    by_cases h : z.2 < x.2
    · rw [if_pos h]
      simp only [List.mem_cons]
    · rw [if_neg h]
      simp only [List.mem_cons, ih]
      tauto

theorem sorted_insert_desc {x : String × ℚ} {l : List (String × ℚ)}
    (hl : List.Sorted (fun a b : String × ℚ => b.2 ≤ a.2) l) :
    List.Sorted (fun a b : String × ℚ => b.2 ≤ a.2) (insert_desc x l) := by
  induction l with
  | nil => simp [insert_desc]
  | cons z zs ih =>
    rw [List.sorted_cons] at hl
    unfold insert_desc
    by_cases h : z.2 < x.2
    · rw [if_pos h, List.sorted_cons]
      refine ⟨?_, ?_⟩
      · intro b hb
        rcases List.mem_cons.mp hb with rfl | hb2
        · exact le_of_lt h
        · exact le_trans (hl.1 b hb2) (le_of_lt h)
      · rw [List.sorted_cons]; exact hl
    · rw [if_neg h, List.sorted_cons]
      refine ⟨?_, ih hl.2⟩
      intro b hb
      rcases mem_insert_desc.mp hb with rfl | hb2
      · exact le_of_not_lt h
      · exact hl.1 b hb2

theorem sorted_sort_desc (l : List (String × ℚ)) :
    List.Sorted (fun a b : String × ℚ => b.2 ≤ a.2) (sort_desc l) := by
  suffices h : ∀ (l acc : List (String × ℚ)),
      List.Sorted (fun a b : String × ℚ => b.2 ≤ a.2) acc →
      List.Sorted (fun a b : String × ℚ => b.2 ≤ a.2)
        (l.foldl (fun a x => insert_desc x a) acc) from
    h l [] (by simp)
  intro l
  induction l with
  | nil => intro acc hacc; simpa using hacc
  | cons x xs ih => intro acc hacc; exact ih _ (sorted_insert_desc hacc)

theorem mem_sort_desc {y : String × ℚ} {l : List (String × ℚ)} :
    y ∈ sort_desc l ↔ y ∈ l := by
  suffices h : ∀ (l acc : List (String × ℚ)),
      (y ∈ l.foldl (fun a x => insert_desc x a) acc ↔ y ∈ acc ∨ y ∈ l) by
    have h2 := h l []
    simpa using h2
  intro l
  induction l with
  | nil => intro acc; simp
  | cons x xs ih =>
    intro acc
    rw [List.foldl_cons, ih]
    simp only [mem_insert_desc, List.mem_cons]
    tauto

theorem filter_insert_desc (x : String × ℚ) (l : List (String × ℚ)) (q : ℚ)
    (hl : List.Sorted (fun a b : String × ℚ => b.2 ≤ a.2) l) :
    (insert_desc x l).filter (fun y => y.2 == q) =
      if x.2 == q then l.filter (fun y => y.2 == q) ++ [x]
      else l.filter (fun y => y.2 == q) := by
  induction l with
  | nil =>
    unfold insert_desc
    cases hx : (x.2 == q) <;> simp [List.filter, hx]
  | cons z zs ih =>
    rw [List.sorted_cons] at hl
    unfold insert_desc
    by_cases h : z.2 < x.2
    · rw [if_pos h]
      cases hx : (x.2 == q) with
      | true =>
        have hq : x.2 = q := by simpa using hx
        have hnil : (z :: zs).filter (fun y => y.2 == q) = [] := by
          rw [List.filter_eq_nil_iff]
          intro a ha
          rcases List.mem_cons.mp ha with rfl | ha2
          · simp only [beq_iff_eq]
            exact ne_of_lt (hq ▸ h)
          · simp only [beq_iff_eq]
            exact ne_of_lt (lt_of_le_of_lt (hl.1 a ha2) (hq ▸ h))
        simp [List.filter_cons, hx, hnil]
      | false => simp [List.filter_cons, hx]
    · rw [if_neg h]
      rw [List.filter_cons, ih hl.2]
      cases hx : (x.2 == q) with
      | true =>
        cases hz : (z.2 == q) <;> simp [List.filter_cons, hz]
      | false =>
        cases hz : (z.2 == q) <;> simp [List.filter_cons, hz]

theorem filter_sort_desc (l : List (String × ℚ)) (q : ℚ) :
    (sort_desc l).filter (fun y => y.2 == q) =
      l.filter (fun y => y.2 == q) := by
  suffices h : ∀ (l acc : List (String × ℚ)),
      List.Sorted (fun a b : String × ℚ => b.2 ≤ a.2) acc →
      (l.foldl (fun a x => insert_desc x a) acc).filter (fun y => y.2 == q) =
        acc.filter (fun y => y.2 == q) ++ l.filter (fun y => y.2 == q) by
    have h2 := h l [] (by simp)
    simpa using h2
  intro l
  induction l with
  | nil => intro acc hacc; simp
  | cons x xs ih =>
    intro acc hacc
    rw [List.foldl_cons, ih _ (sorted_insert_desc hacc),
      filter_insert_desc x acc q hacc]
    cases hx : (x.2 == q) <;> simp [List.filter_cons, hx]

/-! ### Characterization of the rerank loop body -/

theorem year_adjust_spec (grade : Option String) (lvl : Option Int) (s1 : ℚ) :
    year_adjust grade lvl s1 = s1 * spec_year_factor grade lvl := by
  unfold year_adjust spec_year_factor
  by_cases hg : (truthyStr grade && truthyInt lvl) = true
  · rw [if_pos hg, if_pos hg]
    dsimp only
    split_ifs <;> ring
  · rw [if_neg hg, if_neg hg]
    ring

theorem conc_boost_spec_of_tokens {concentration : Option String}
    {course_code : String} (score : ℚ) (h : pySplit course_code ≠ []) :
    conc_boost concentration course_code score =
      .ok (score * spec_conc_factor concentration course_code) := by
  rcases hsp : pySplit course_code with _ | ⟨subj, rest⟩
  · exact absurd hsp h
  · unfold conc_boost spec_conc_factor course_department
    rw [hsp]
    cases concentration with
    | none => rw [mul_one]
    | some conc =>
      cases hce : conc.data.isEmpty with
      | true => simp [hce, mul_one]
      | false =>
        cases hbe : (pyUpper subj == pyUpper conc) with
        | true => simp [hce, hbe]
        | false => simp [hce, hbe, mul_one]

theorem conc_boost_spec {concentration : Option String} {course_code : String}
    {score s1 : ℚ} (h : conc_boost concentration course_code score = .ok s1) :
    s1 = score * spec_conc_factor concentration course_code := by
  rcases hsp : pySplit course_code with _ | ⟨subj, rest⟩
  · unfold conc_boost at h
    unfold spec_conc_factor course_department
    rw [hsp]
    cases concentration with
    | none =>
      dsimp only at h
      injection h with h1
      rw [← h1, mul_one]
    | some conc =>
      dsimp only at h
      cases hce : conc.data.isEmpty with
      | true =>
        rw [hce] at h
        simp only [Bool.not_true, Bool.false_eq_true, if_false] at h
        injection h with h1
        rw [← h1]
        simp [hce, mul_one]
      | false =>
        rw [hce, hsp] at h
        simp at h
  · rw [conc_boost_spec_of_tokens score (by rw [hsp]; simp)] at h
    injection h with h1
    exact h1.symm

theorem rerank_step_ok_some {past_courses : List (String × String)}
    {concentration grade : Option String} {max_level : Option Int}
    {min_similarity : ℚ} {cand : String × ℚ} {c : String} {t : ℚ}
    (h : rerank_step past_courses concentration grade max_level min_similarity
        cand = .ok (some (c, t))) :
    c = cand.1 ∧ min_similarity ≤ cand.2 ∧
    in_past past_courses cand.1 = false ∧
    spec_level_ok max_level (course_level cand.1) ∧
    t = cand.2 * spec_conc_factor concentration cand.1 *
        spec_year_factor grade (course_level cand.1) := by
  unfold rerank_step at h
  by_cases h1 : cand.2 < min_similarity
  · rw [if_pos h1] at h; simp at h
  rw [if_neg h1] at h
  cases h2 : in_past past_courses cand.1 with
  | true =>
    rw [h2] at h; simp at h
  | false =>
  rw [h2] at h
  simp only [Bool.false_eq_true, if_false] at h
  by_cases h3 : (truthyInt max_level && truthyInt (course_level cand.1) &&
      decide ((course_level cand.1).getD 0 > max_level.getD 0)) = true
  · rw [if_pos h3] at h; simp at h
  rw [if_neg h3] at h
  have hlev : spec_level_ok max_level (course_level cand.1) := by
    intro hm hl
    by_contra hgt
    push_neg at hgt
    apply h3
    simp only [hm, hl, Bool.true_and, decide_eq_true_eq]
    exact hgt
  cases hcb : conc_boost concentration cand.1 cand.2 with
  | error e => rw [hcb] at h; simp at h
  | ok s1 =>
    rw [hcb] at h
    simp only [Except.ok.injEq, Option.some.injEq, Prod.mk.injEq] at h
    obtain ⟨hc, ht⟩ := h
    refine ⟨hc.symm, le_of_not_lt h1, rfl, hlev, ?_⟩
    rw [← ht, year_adjust_spec, conc_boost_spec hcb]

theorem rerank_pass_mem {past_courses : List (String × String)}
    {concentration grade : Option String} {max_level : Option Int}
    {min_similarity : ℚ} :
    ∀ {vr pre : List (String × ℚ)},
      rerank_pass past_courses concentration grade max_level min_similarity
        vr = .ok pre →
      ∀ {x : String × ℚ}, x ∈ pre →
        ∃ cand ∈ vr, rerank_step past_courses concentration grade max_level
            min_similarity cand = .ok (some x) := by
  intro vr
  induction vr with
  | nil =>
    intro pre h x hx
    unfold rerank_pass at h
    injection h with h1
    subst h1
    simp at hx
  | cons cand rest ih =>
    intro pre h x hx
    unfold rerank_pass at h
    cases hstep : rerank_step past_courses concentration grade max_level
        min_similarity cand with
    | error e => rw [hstep] at h; simp at h
    | ok r =>
      rw [hstep] at h
      cases hrest : rerank_pass past_courses concentration grade max_level
          min_similarity rest with
      | error e => rw [hrest] at h; simp at h
      | ok tail =>
        rw [hrest] at h
        cases r with
        | some x0 =>
          simp only [Except.ok.injEq] at h
          subst h
          rcases List.mem_cons.mp hx with rfl | hx2
          · exact ⟨cand, List.mem_cons_self cand rest, hstep⟩
          · obtain ⟨cand2, hm, hs⟩ := ih hrest hx2
            exact ⟨cand2, List.mem_cons_of_mem _ hm, hs⟩
        | none =>
          simp only [Except.ok.injEq] at h
          subst h
          obtain ⟨cand2, hm, hs⟩ := ih hrest hx
          exact ⟨cand2, List.mem_cons_of_mem _ hm, hs⟩

/-- C4: a candidate survives `filter_and_rerank_courses` only if its
score clears `min_similarity`, its code is not a key of `past_courses`,
and the level ceiling (when given) is respected; each survivor's output
score is the input score times the concentration boost (1.2 on a
case-insensitive department match) times the class-year factor. -/
theorem c4_rerank_hard_filters_and_scoring :
    ∀ (vector_results : List (String × ℚ))
      (past_courses : List (String × String))
      (concentration grade : Option String) (max_level : Option Int)
      (min_similarity : ℚ) (out : List (String × ℚ)),
      filter_and_rerank_courses vector_results past_courses concentration
        grade max_level min_similarity = .ok out →
      ∀ c t, (c, t) ∈ out →
        ∃ s, (c, s) ∈ vector_results ∧ min_similarity ≤ s ∧
          in_past past_courses c = false ∧
          spec_level_ok max_level (course_level c) ∧
          t = s * spec_conc_factor concentration c *
              spec_year_factor grade (course_level c) := by
  intro vr past conc grade maxl minsim out hout c t hmem
  unfold filter_and_rerank_courses at hout
  cases hpass : rerank_pass past conc grade maxl minsim vr with
  | error e => rw [hpass] at hout; simp at hout
  | ok pre =>
    rw [hpass] at hout
    simp only [Except.ok.injEq] at hout
    subst hout
    have hpre : (c, t) ∈ pre := mem_sort_desc.mp hmem
    obtain ⟨cand, hcand, hstep⟩ := rerank_pass_mem hpass hpre
    obtain ⟨hc, hsim, hpast, hlev, ht⟩ := rerank_step_ok_some hstep
    refine ⟨cand.2, ?_, ?_, ?_, ?_, ?_⟩
    · have : cand = (c, cand.2) := by
        rw [Prod.ext_iff]
        exact ⟨hc.symm, rfl⟩
      rwa [← this]
    · exact hsim
    · rwa [← hc] at hpast
    · rwa [← hc] at hlev
    · rw [ht, hc]

/-- Witness for C4 at a concrete input with a level ceiling (the
300-level candidate is dropped, the 100-level one survives). -/
theorem c4_rerank_hard_filters_and_scoring_witness :
    ∃ s, (("COS 126", s) ∈
        ([("COS 326", (2 : ℚ)), ("COS 126", 1)] : List (String × ℚ))) ∧
      (0 : ℚ) ≤ s ∧ in_past [] "COS 126" = false ∧
      spec_level_ok (some 200) (course_level "COS 126") ∧
      (1 : ℚ) = s * spec_conc_factor none "COS 126" *
        spec_year_factor none (course_level "COS 126") :=
  c4_rerank_hard_filters_and_scoring [("COS 326", 2), ("COS 126", 1)] []
    none none (some 200) 0 [("COS 126", 1)] (by decide)
    "COS 126" 1 (by decide)

/-- C7: the rerank output is deterministic (the embedding is a pure
function, so two runs on identical input are definitionally equal) and
is a stable descending sort: the output is sorted by non-increasing
adjusted score, and for every score value the output's entries with that
score are exactly the pre-sort entries with that score in their original
(input/catalog) order. -/
theorem c7_rerank_stable_sort :
    ∀ (vector_results : List (String × ℚ))
      (past_courses : List (String × String))
      (concentration grade : Option String) (max_level : Option Int)
      (min_similarity : ℚ) (out : List (String × ℚ)),
      filter_and_rerank_courses vector_results past_courses concentration
        grade max_level min_similarity = .ok out →
      List.Sorted (fun a b : String × ℚ => b.2 ≤ a.2) out ∧
      ∀ pre, rerank_pass past_courses concentration grade max_level
          min_similarity vector_results = .ok pre →
        ∀ q : ℚ, out.filter (fun y => y.2 == q) =
          pre.filter (fun y => y.2 == q) := by
  intro vr past conc grade maxl minsim out hout
  unfold filter_and_rerank_courses at hout
  cases hpass : rerank_pass past conc grade maxl minsim vr with
  | error e => rw [hpass] at hout; simp at hout
  | ok pre0 =>
    rw [hpass] at hout
    simp only [Except.ok.injEq] at hout
    subst hout
    refine ⟨sorted_sort_desc pre0, ?_⟩
    intro pre hpre q
    simp only [Except.ok.injEq] at hpre
    subst hpre
    exact filter_sort_desc pre0 q

/-- Witness for C7: two equal-scored candidates keep their input order
behind the higher-scored one. -/
theorem c7_rerank_stable_sort_witness :
    List.Sorted (fun a b : String × ℚ => b.2 ≤ a.2)
      [("CCC 300", (3 : ℚ)), ("AAA 100", 2), ("BBB 200", 2)] ∧
    ([("CCC 300", (3 : ℚ)), ("AAA 100", 2), ("BBB 200", 2)].filter
        (fun y => y.2 == (2 : ℚ))) =
      ([("AAA 100", (2 : ℚ)), ("BBB 200", 2), ("CCC 300", 3)].filter
        (fun y => y.2 == (2 : ℚ))) :=
  have h := c7_rerank_stable_sort
    [("AAA 100", 2), ("BBB 200", 2), ("CCC 300", 3)] [] none none none 0
    [("CCC 300", 3), ("AAA 100", 2), ("BBB 200", 2)] (by decide)
  ⟨h.1, h.2 [("AAA 100", 2), ("BBB 200", 2), ("CCC 300", 3)] (by decide) 2⟩

/-! ### Safety of the level extraction (C9) -/

theorem rerank_step_no_level {past_courses : List (String × String)}
    {concentration grade : Option String} {max_level : Option Int}
    {min_similarity : ℚ} {c : String} {s : ℚ}
    (hlvl : course_level c = none) (hsp : pySplit c ≠ [])
    (hsim : min_similarity ≤ s) (hpast : in_past past_courses c = false) :
    rerank_step past_courses concentration grade max_level min_similarity
      (c, s) = .ok (some (c, s * spec_conc_factor concentration c)) := by
  unfold rerank_step
  rw [if_neg (not_lt.mpr hsim)]
  rw [if_neg (by simp [hpast])]
  dsimp only
  rw [hlvl]
  rw [if_neg (by simp [truthyInt])]
  rw [conc_boost_spec_of_tokens s hsp]
  have hyear : year_adjust grade none (s * spec_conc_factor concentration c) =
      s * spec_conc_factor concentration c := by
    unfold year_adjust
    rw [if_neg (by simp [truthyInt])]
  dsimp only
  rw [hyear]

theorem rerank_step_not_error {past_courses : List (String × String)}
    {concentration grade : Option String} {max_level : Option Int}
    {min_similarity : ℚ} {cand : String × ℚ} (hsp : pySplit cand.1 ≠ [])
    (e : Unit) :
    rerank_step past_courses concentration grade max_level min_similarity
      cand ≠ .error e := by
  unfold rerank_step
  intro hcontra
  by_cases h1 : cand.2 < min_similarity
  · rw [if_pos h1] at hcontra; simp at hcontra
  rw [if_neg h1] at hcontra
  by_cases h2 : in_past past_courses cand.1 = true
  · rw [if_pos h2] at hcontra; simp at hcontra
  rw [if_neg h2] at hcontra
  by_cases h3 : (truthyInt max_level && truthyInt (course_level cand.1) &&
      decide ((course_level cand.1).getD 0 > max_level.getD 0)) = true
  · rw [if_pos h3] at hcontra; simp at hcontra
  rw [if_neg h3] at hcontra
  rw [conc_boost_spec_of_tokens cand.2 hsp] at hcontra
  simp at hcontra

theorem rerank_pass_total {past_courses : List (String × String)}
    {concentration grade : Option String} {max_level : Option Int}
    {min_similarity : ℚ} :
    ∀ {vr : List (String × ℚ)}, (∀ p ∈ vr, pySplit p.1 ≠ []) →
      ∃ pre, rerank_pass past_courses concentration grade max_level
        min_similarity vr = .ok pre := by
  intro vr
  induction vr with
  | nil => intro _; exact ⟨[], rfl⟩
  | cons cand rest ih =>
    intro htok
    obtain ⟨tail, htail⟩ := ih (fun p hp => htok p (List.mem_cons_of_mem _ hp))
    cases hstep : rerank_step past_courses concentration grade max_level
        min_similarity cand with
    | error e =>
      exact absurd hstep
        (rerank_step_not_error (htok cand (List.mem_cons_self cand rest)) e)
    | ok r =>
      cases r with
      | some x =>
        refine ⟨x :: tail, ?_⟩
        unfold rerank_pass
        rw [hstep, htail]
      | none =>
        refine ⟨tail, ?_⟩
        unfold rerank_pass
        rw [hstep, htail]

theorem rerank_pass_mem_of_step {past_courses : List (String × String)}
    {concentration grade : Option String} {max_level : Option Int}
    {min_similarity : ℚ} :
    ∀ {vr pre : List (String × ℚ)},
      rerank_pass past_courses concentration grade max_level min_similarity
        vr = .ok pre →
      ∀ {cand : String × ℚ} {x : String × ℚ}, cand ∈ vr →
        rerank_step past_courses concentration grade max_level min_similarity
          cand = .ok (some x) → x ∈ pre := by
  intro vr
  induction vr with
  | nil => intro pre _ cand x hc; simp at hc
  | cons cand0 rest ih =>
    intro pre h cand x hc hstep
    unfold rerank_pass at h
    cases hstep0 : rerank_step past_courses concentration grade max_level
        min_similarity cand0 with
    | error e => rw [hstep0] at h; simp at h
    | ok r =>
      rw [hstep0] at h
      cases hrest : rerank_pass past_courses concentration grade max_level
          min_similarity rest with
      | error e => rw [hrest] at h; simp at h
      | ok tail =>
        rw [hrest] at h
        rcases List.mem_cons.mp hc with rfl | hc2
        · rw [hstep] at hstep0
          cases r with
          | some x0 =>
            simp only [Except.ok.injEq, Option.some.injEq] at h hstep0
            subst h
            rw [hstep0]
            exact List.mem_cons_self x0 tail
          | none => simp at hstep0
        · cases r with
          | some x0 =>
            simp only [Except.ok.injEq] at h
            subst h
            exact List.mem_cons_of_mem _ (ih hrest hc2 hstep)
          | none =>
            simp only [Except.ok.injEq] at h
            subst h
            exact ih hrest hc2 hstep

/-- C9 counterexample: a candidate whose course-code string has no
whitespace tokens at all (here the empty string) makes
`filter_and_rerank_courses` raise an uncaught `IndexError` when a
concentration is set, because `course_code.split()[0]` in the
concentration-boost block is outside the `try/except` — so the claim
that such candidates never raise is false as stated. -/
theorem c9_rerank_crash_counterexample :
    filter_and_rerank_courses [("", 1)] [] (some "COS") none none 0 =
      Except.error () := by decide

/-- C9 amended: for inputs whose candidate codes all have at least one
whitespace token, `filter_and_rerank_courses` does not raise; a candidate
whose course level is undefined (no catalog-number token, or a catalog
number not starting with a decimal digit) that passes the similarity and
past-courses filters is exempt from the `max_level` filter and from all
class-year adjustments and is retained with only the concentration boost
applied to its score. -/
theorem c9_rerank_level_safety_amended :
    ∀ (vector_results : List (String × ℚ))
      (past_courses : List (String × String))
      (concentration grade : Option String) (max_level : Option Int)
      (min_similarity : ℚ),
      (∀ p ∈ vector_results, pySplit p.1 ≠ []) →
      ∃ out, filter_and_rerank_courses vector_results past_courses
          concentration grade max_level min_similarity = .ok out ∧
        ∀ c s, (c, s) ∈ vector_results → course_level c = none →
          min_similarity ≤ s → in_past past_courses c = false →
          (c, s * spec_conc_factor concentration c) ∈ out := by
  intro vr past conc grade maxl minsim htok
  obtain ⟨pre, hpre⟩ := rerank_pass_total htok
  refine ⟨sort_desc pre, ?_, ?_⟩
  · unfold filter_and_rerank_courses
    rw [hpre]
  · intro c s hmem hlvl hsim hpast
    have hsp : pySplit c ≠ [] := htok (c, s) hmem
    have hstep := @rerank_step_no_level past conc grade maxl minsim c s
      hlvl hsp hsim hpast
    exact mem_sort_desc.mpr (rerank_pass_mem_of_step hpre hmem hstep)

/-- Witness for the amended C9: a single-token code with no catalog
number survives untouched. -/
theorem c9_rerank_level_safety_amended_witness :
    ∃ out, filter_and_rerank_courses [("COS", 1)] [] (some "ECO") none
        (some 200) 0 = .ok out ∧
      ∀ c s, (c, s) ∈ ([("COS", (1 : ℚ))] : List (String × ℚ)) →
        course_level c = none → (0 : ℚ) ≤ s → in_past [] c = false →
        (c, s * spec_conc_factor (some "ECO") c) ∈ out :=
  c9_rerank_level_safety_amended [("COS", 1)] [] (some "ECO") none
    (some 200) 0 (by decide)

/-! ### Exactness of the distribution filter (C5) -/

theorem normalizeDistCode_idem (s : String) :
    normalizeDistCode (normalizeDistCode s) = normalizeDistCode s := by
  by_cases h1 : s = "STL"
  · subst h1; decide
  by_cases h2 : s = "STN"
  · subst h2; decide
  by_cases h3 : s = "QR"
  · subst h3; decide
  have hs : normalizeDistCode s = s := by
    unfold normalizeDistCode
    rw [if_neg (by simp [h1]), if_neg (by simp [h2]), if_neg (by simp [h3])]
  rw [hs, hs]

theorem dist_matches_spec {d : String} {f : DistributionField}
    (h : dist_matches (normalizeDistCode (pyUpper d)) (pyUpper d) f = true) :
    normalizeDistCode (pyUpper d) ∈ spec_normalized_tags f := by
  cases f with
  | dlist tags =>
    unfold dist_matches at h
    unfold spec_normalized_tags
    rw [Bool.or_eq_true] at h
    rcases h with h | h
    · have hm : normalizeDistCode (pyUpper d) ∈
          (tags.filter (fun t => !t.data.isEmpty)).map
            (fun t => pyUpper (pyStrip t)) := by simpa using h
      exact List.mem_map.mpr ⟨_, hm, normalizeDistCode_idem _⟩
    · have hm : pyUpper d ∈
          (tags.filter (fun t => !t.data.isEmpty)).map
            (fun t => pyUpper (pyStrip t)) := by simpa using h
      exact List.mem_map.mpr ⟨_, hm, rfl⟩
  | dstr s =>
    unfold dist_matches at h
    unfold spec_normalized_tags
    rw [Bool.and_eq_true] at h
    have h2 := h.2
    rw [Bool.or_eq_true] at h2
    rcases h2 with h2 | h2
    · have hm : normalizeDistCode (pyUpper d) ∈
          (pySplit (commaToSpace (pyUpper s))).map
            (fun t => pyUpper (pyStrip t)) := by simpa using h2
      exact List.mem_map.mpr ⟨_, hm, normalizeDistCode_idem _⟩
    · have hm : pyUpper d ∈
          (pySplit (commaToSpace (pyUpper s))).map
            (fun t => pyUpper (pyStrip t)) := by simpa using h2
      exact List.mem_map.mpr ⟨_, hm, rfl⟩
  | dother => simp [dist_matches] at h

/-- C5: every course code returned by the requirement lookup over the
catalog actually carries the requested distribution code among its
normalized distribution tags — only exact tag matches are returned, for
both the list-shaped and the delimited-string-shaped distribution field
(the requested code is compared after the same uppercase/synonym
normalization the index applies to tags). -/
theorem c5_distribution_filter_exact :
    ∀ (subjects : List SubjectEntry) (d : String)
      (past_courses : List (String × String)) (exclude_taken : Bool)
      (code : String),
      code ∈ filter_courses_by_distribution subjects d past_courses
        exclude_taken →
      ∃ subj ∈ subjects, ∃ course ∈ subj.courses, ∃ catalog_num,
        course.catalog_number = some catalog_num ∧
        code = subj.code ++ " " ++ catalog_num ∧
        normalizeDistCode (pyUpper d) ∈
          spec_normalized_tags course.distribution := by
  intro subjects d past excl code hmem
  unfold filter_courses_by_distribution at hmem
  rw [List.mem_flatMap] at hmem
  obtain ⟨subj, hsubj, hmem2⟩ := hmem
  rw [List.mem_filterMap] at hmem2
  obtain ⟨course, hcourse, hf⟩ := hmem2
  refine ⟨subj, hsubj, course, hcourse, ?_⟩
  cases hcn : course.catalog_number with
  | none => rw [hcn] at hf; simp at hf
  | some catalog_num =>
    rw [hcn] at hf
    dsimp only at hf
    by_cases hce : catalog_num.data.isEmpty = true
    · rw [if_pos hce] at hf; simp at hf
    · rw [if_neg hce] at hf
      by_cases hskip : (excl && !past.isEmpty &&
          in_past past (subj.code ++ " " ++ catalog_num)) = true
      · rw [if_pos hskip] at hf; simp at hf
      · rw [if_neg hskip] at hf
        by_cases hm : dist_matches (normalizeDistCode (pyUpper d))
            (pyUpper d) course.distribution = true
        · rw [if_pos hm] at hf
          simp only [Option.some.injEq] at hf
          exact ⟨catalog_num, rfl, hf.symm, dist_matches_spec hm⟩
        · rw [if_neg hm] at hf; simp at hf

/-- Witness for C5 at a one-course catalog. -/
theorem c5_distribution_filter_exact_witness :
    ∃ subj ∈ [SubjectEntry.mk "AAS"
        [CourseEntry.mk (some "225") (.dlist ["LA", "CD"])]],
      ∃ course ∈ subj.courses, ∃ catalog_num,
        course.catalog_number = some catalog_num ∧
        "AAS 225" = subj.code ++ " " ++ catalog_num ∧
        normalizeDistCode (pyUpper "la") ∈
          spec_normalized_tags course.distribution :=
  c5_distribution_filter_exact
    [SubjectEntry.mk "AAS" [CourseEntry.mk (some "225") (.dlist ["LA", "CD"])]]
    "la" [] true "AAS 225" (by decide)

/-! ### Cosine similarity (C6) -/

theorem npDot_comm (a b : List ℝ) : npDot a b = npDot b a := by
  unfold npDot
  rw [List.zipWith_comm_of_comm (· * ·) mul_comm]

theorem npDot_self_nonneg (a : List ℝ) : 0 ≤ npDot a a := by
  unfold npDot
  rw [List.zipWith_same]
  refine List.sum_nonneg ?_
  intro x hx
  obtain ⟨y, _, rfl⟩ := List.mem_map.mp hx
  exact mul_self_nonneg y

theorem npDot_self_pos : ∀ {a : List ℝ}, (∃ x ∈ a, x ≠ 0) → 0 < npDot a a := by
  intro a
  induction a with
  | nil => rintro ⟨x, hx, _⟩; simp at hx
  | cons y ys ih =>
    rintro ⟨x, hx, hne⟩
    have hsplit : npDot (y :: ys) (y :: ys) = y * y + npDot ys ys := by
      unfold npDot
      rw [List.zipWith_cons_cons, List.sum_cons]
    rw [hsplit]
    rcases List.mem_cons.mp hx with rfl | hx2
    · have h1 : 0 < x * x := mul_self_pos.mpr hne
      have h2 := npDot_self_nonneg ys
      linarith
    · have h1 := ih ⟨x, hx2, hne⟩
      have h2 := mul_self_nonneg y
      linarith

/-- C6: `cosine_similarity` computes `dot(a,b) / (‖a‖·‖b‖)` with a
zero-norm guard returning `0.0`; it is symmetric on equal-length vectors,
and equals `1.0` on the diagonal for every nonzero vector. -/
theorem c6_cosine_similarity_properties :
    (∀ a b : List ℝ,
      (npNorm a = 0 ∨ npNorm b = 0 → cosine_similarity a b = 0) ∧
      (¬(npNorm a = 0 ∨ npNorm b = 0) →
        cosine_similarity a b = npDot a b / (npNorm a * npNorm b))) ∧
    (∀ a b : List ℝ, a.length = b.length →
      cosine_similarity a b = cosine_similarity b a) ∧
    (∀ a : List ℝ, (∃ x ∈ a, x ≠ 0) → cosine_similarity a a = 1) := by
  refine ⟨?_, ?_, ?_⟩
  · intro a b
    constructor
    · intro h; unfold cosine_similarity; rw [if_pos h]
    · intro h; unfold cosine_similarity; rw [if_neg h]
  · intro a b _
    unfold cosine_similarity
    by_cases h : npNorm a = 0 ∨ npNorm b = 0
    · rw [if_pos h, if_pos (Or.symm h)]
    · rw [if_neg h, if_neg (fun hc => h (Or.symm hc))]
      rw [npDot_comm, mul_comm]
  · intro a h
    have hpos := npDot_self_pos h
    have hnormpos : 0 < npNorm a := by
      unfold npNorm
      exact Real.sqrt_pos.mpr hpos
    have hnorm : npNorm a ≠ 0 := ne_of_gt hnormpos
    unfold cosine_similarity
    rw [if_neg (by rintro (hc | hc) <;> exact hnorm hc)]
    unfold npNorm
    rw [Real.mul_self_sqrt (npDot_self_nonneg a)]
    exact div_self (ne_of_gt hpos)

/-- Witness for C6 at concrete vectors. -/
theorem c6_cosine_similarity_properties_witness :
    cosine_similarity [(1 : ℝ), 0] [0, 1] =
      cosine_similarity [0, 1] [(1 : ℝ), 0] ∧
    cosine_similarity [(1 : ℝ), 2] [(1 : ℝ), 2] = 1 :=
  ⟨c6_cosine_similarity_properties.2.1 [1, 0] [0, 1] rfl,
   c6_cosine_similarity_properties.2.2 [1, 2] ⟨1, by simp, one_ne_zero⟩⟩

/-! ### LLM retry loop and parser (C8) -/

theorem extractByRegex_le5 (t : String) : (extractByRegex t).length ≤ 5 := by
  unfold extractByRegex
  exact List.length_take_le 5 _

theorem parse_course_codes_le5 (jsonLoads : String → Option PyJson)
    (t : String) (l : List String)
    (h : parse_course_codes jsonLoads t = .ok l) : l.length ≤ 5 := by
  unfold parse_course_codes at h
  split at h
  · split at h
    · split at h
      · split at h
        · simp at h
        · split at h
          · simp at h
          · simp only [Except.ok.injEq] at h
            subst h
            exact List.length_take_le 5 _
      · simp only [Except.ok.injEq] at h
        subst h
        exact extractByRegex_le5 t
    · simp only [Except.ok.injEq] at h
      subst h
      exact extractByRegex_le5 t
  · simp only [Except.ok.injEq] at h
    subst h
    exact extractByRegex_le5 t

theorem attempts_all_short (jsonLoads : String → Option PyJson)
    (llmResponse : ℕ → Except Unit String) :
    ∀ attempts : List ℕ,
      (∀ i ∈ attempts, ∃ s l, llmResponse i = .ok s ∧
        parse_course_codes jsonLoads s = .ok l ∧ l.length < 5) →
      recommendation_attempts jsonLoads llmResponse attempts =
        .error .validationFailure := by
  intro attempts
  induction attempts with
  | nil => intro _; rfl
  | cons a rest ih =>
    intro h
    obtain ⟨s, l, hs, hp, hl⟩ := h a (List.mem_cons_self a rest)
    unfold recommendation_attempts
    rw [hs]
    dsimp only
    rw [hp]
    dsimp only
    have h5 : ¬((l.length == 5) = true) := by
      rw [beq_iff_eq]
      omega
    rw [if_neg h5, if_neg (by omega : ¬(l.length > 5))]
    cases rest with
    | nil => simp
    | cons b tl =>
      rw [if_neg (by simp)]
      exact ih (fun i hi => h i (List.mem_cons_of_mem _ hi))

/-- C8: the recommendation generator calls the LLM at most 3 times (its
result depends only on the first three attempt outcomes); the parser
tolerates the three shapes (JSON object with a known key, JSON array,
free text with spaced or concatenated subject/number pairs), normalizing
candidates to uppercase `SUBJECT NNN`; extracted lists are silently
truncated to at most 5 and never padded; and when every attempt parses to
fewer than 5 codes the call fails with the `ValueError` (ValidationError)
rather than retrying further. -/
theorem c8_llm_retry_and_parsing :
    (∀ (jsonLoads : String → Option PyJson)
        (llm llm2 : ℕ → Except Unit String),
      (∀ i, i < 3 → llm i = llm2 i) →
      generate_course_recommendations jsonLoads llm 3 =
        generate_course_recommendations jsonLoads llm2 3) ∧
    (∀ (jsonLoads : String → Option PyJson) (t : String),
      jsonLoads t = some (.obj [("courses",
          .arr [.str "cos 126", .str "mat-202", .str "PHY104", .str "bad",
            .str "COS 217"])]) →
      parse_course_codes jsonLoads t =
        .ok ["COS 126", "MAT 202", "PHY 104", "COS 217"]) ∧
    (∀ (jsonLoads : String → Option PyJson) (t : String),
      jsonLoads t = some (.arr [.str "COS 126", .str "ECO100", .str "bad"]) →
      parse_course_codes jsonLoads t = .ok ["COS 126", "ECO 100"]) ∧
    (parse_course_codes (fun _ => none) "Consider COS 126 and maybe ECO100." =
      .ok ["COS 126", "ECO 100"]) ∧
    (∀ (jsonLoads : String → Option PyJson) (t : String) (l : List String),
      parse_course_codes jsonLoads t = .ok l → l.length ≤ 5) ∧
    (∀ (jsonLoads : String → Option PyJson)
        (llm : ℕ → Except Unit String),
      (∀ i, i < 3 → ∃ s l, llm i = .ok s ∧
        parse_course_codes jsonLoads s = .ok l ∧ l.length < 5) →
      generate_course_recommendations jsonLoads llm 3 =
        .error .validationFailure) := by
  refine ⟨?_, ?_, ?_, ?_, ?_, ?_⟩
  · intro jsonLoads llm llm2 h
    have e0 := h 0 (by norm_num)
    have e1 := h 1 (by norm_num)
    have e2 := h 2 (by norm_num)
    unfold generate_course_recommendations
    rw [show List.range 3 = [0, 1, 2] from rfl]
    simp only [recommendation_attempts, e0, e1, e2]
  · intro jsonLoads t h
    unfold parse_course_codes
    rw [h]
    dsimp only
    rw [show extractCandidates (PyJson.obj [("courses",
        PyJson.arr [PyJson.str "cos 126", PyJson.str "mat-202",
          PyJson.str "PHY104", PyJson.str "bad", PyJson.str "COS 217"])]) =
      some (PyJson.arr [PyJson.str "cos 126", PyJson.str "mat-202",
        PyJson.str "PHY104", PyJson.str "bad", PyJson.str "COS 217"]) from rfl]
    dsimp only
    rw [if_pos (show pyTruthy (PyJson.arr [PyJson.str "cos 126",
        PyJson.str "mat-202", PyJson.str "PHY104", PyJson.str "bad",
        PyJson.str "COS 217"]) = true from rfl)]
    decide
  · intro jsonLoads t h
    unfold parse_course_codes
    rw [h]
    dsimp only
    rw [show extractCandidates (PyJson.arr [PyJson.str "COS 126",
        PyJson.str "ECO100", PyJson.str "bad"]) =
      some (PyJson.arr [PyJson.str "COS 126", PyJson.str "ECO100",
        PyJson.str "bad"]) from rfl]
    dsimp only
    rw [if_pos (show pyTruthy (PyJson.arr [PyJson.str "COS 126",
        PyJson.str "ECO100", PyJson.str "bad"]) = true from rfl)]
    decide
  · decide
  · exact parse_course_codes_le5
  · intro jsonLoads llm h
    unfold generate_course_recommendations
    rw [show List.range 3 = [0, 1, 2] from rfl]
    refine attempts_all_short jsonLoads llm [0, 1, 2] ?_
    intro i hi
    refine h i ?_
    rcases List.mem_cons.mp hi with rfl | hi2
    · norm_num
    rcases List.mem_cons.mp hi2 with rfl | hi3
    · norm_num
    rcases List.mem_cons.mp hi3 with rfl | hi4
    · norm_num
    · simp at hi4

/-- Witness for C8: an LLM that only ever produces prose with no course
codes exhausts all three attempts and surfaces the validation failure;
the array shape parses as claimed. -/
theorem c8_llm_retry_and_parsing_witness :
    generate_course_recommendations (fun _ => none)
      (fun _ => Except.ok "no recommendations today") 3 =
      .error RecFailure.validationFailure ∧
    parse_course_codes
      (fun _ => some (.arr [.str "COS 126", .str "ECO100", .str "bad"]))
      "resp" = .ok ["COS 126", "ECO 100"] :=
  ⟨c8_llm_retry_and_parsing.2.2.2.2.2 (fun _ => none)
      (fun _ => Except.ok "no recommendations today")
      (fun _ _ => ⟨"no recommendations today", [], rfl, by decide, by decide⟩),
   c8_llm_retry_and_parsing.2.2.1 _ "resp" rfl⟩
